import Mathlib

/-!
Verification of the storage-accounting and share-link core of the
File-Management-System repository.

The source is a PL/pgSQL schema file.  We shallowly embed the tables that
the server-side procedures touch and translate each procedure and the
`update_storage_usage` trigger into Lean functions.

Modelling conventions, fixed once here:
* UUIDs are `Nat`, timestamps (`TIMESTAMP WITH TIME ZONE`, `NOW()`) are `Nat`,
  `BIGINT`/`INTEGER` columns are `Int`.
* Nullable columns are `Option`; `COALESCE(x, d)` is `Option.getD`.
* A PL/pgSQL function runs inside one transaction.  An uncaught
  `RAISE EXCEPTION` aborts that transaction, rolling back every statement the
  function already executed.  Hence each procedure is embedded as a function
  returning `Except err result × DB`, and on every error path the returned
  `DB` is the input state (nothing the aborted transaction wrote survives).
* `auth.uid()` is passed explicitly as a `uid : Nat` argument; random values
  (`gen_random_uuid()`, `gen_random_bytes`) are passed explicitly as
  arguments, since they are external inputs to the logic.
* The `updated_at` bookkeeping trigger, RLS policies, storage-bucket
  policies and the `folders` table are not consulted by any claim and are
  not modelled; `folder_id` on files is kept as an opaque `Option Nat`.
-/

/-- A row of `public.files` (columns in source order; `updated_at` omitted). -/
structure FileRec where
  id : Nat
  name : String
  original_name : String
  file_path : String
  file_type : String
  file_size : Int
  folder_id : Option Nat
  owner_id : Nat
  is_deleted : Option Bool
  deleted_at : Option Nat
  created_at : Nat
  deriving Repr, DecidableEq

/-- A row of `public.share_links`. -/
structure ShareLink where
  id : Nat
  file_id : Nat
  token : String
  password : Option String
  expires_at : Option Nat
  download_limit : Option Int
  download_count : Int
  created_by : Nat
  is_active : Bool
  deriving Repr, DecidableEq

/-- Database state: the `files` and `share_links` tables, and the
`storage_used` column of `public.profiles` as a map from account id. -/
structure DB where
  files : List FileRec
  links : List ShareLink
  profiles : Nat → Int

/-- `NOT COALESCE(is_deleted, FALSE)`: the file counts toward the ledger. -/
def counted (f : FileRec) : Bool := !(f.is_deleted.getD false)

/-- Point update of one account's `storage_used`
(`UPDATE profiles SET storage_used = g(storage_used) WHERE id = a`). -/
def updProfile (p : Nat → Int) (a : Nat) (g : Int → Int) : Nat → Int :=
  fun x => if x = a then g (p x) else p x

/-- `update_storage_usage`, `TG_OP = 'INSERT'` branch (source lines 193-199). -/
def triggerInsert (new : FileRec) (p : Nat → Int) : Nat → Int :=
  if counted new then
    updProfile p new.owner_id (fun s => s + new.file_size)
  else p

/-- `update_storage_usage`, `TG_OP = 'DELETE'` branch (source lines 201-206).
`GREATEST(0, x)` is `max 0 x`. -/
def triggerDelete (old : FileRec) (p : Nat → Int) : Nat → Int :=
  if counted old then
    updProfile p old.owner_id (fun s => max 0 (s - old.file_size))
  else p

/-- `update_storage_usage`, `TG_OP = 'UPDATE'` branch (source lines 208-246).
Note that the same-owner size-delta adjustment (source line 230) is NOT
clamped with `GREATEST`, unlike the subtraction branches. -/
def triggerUpdate (old new : FileRec) (p : Nat → Int) : Nat → Int :=
  if new.owner_id ≠ old.owner_id then
    -- owner changed: subtract from old owner if counted, add to new owner if counted
    let p1 := if counted old then
        updProfile p old.owner_id (fun s => max 0 (s - old.file_size))
      else p
    if counted new then
      updProfile p1 new.owner_id (fun s => s + new.file_size)
    else p1
  else
    if counted old ∧ counted new then
      if new.file_size ≠ old.file_size then
        updProfile p new.owner_id (fun s => s + (new.file_size - old.file_size))
      else p
    else if counted old ∧ ¬ counted new then
      updProfile p new.owner_id (fun s => max 0 (s - old.file_size))
    else if ¬ counted old ∧ counted new then
      updProfile p new.owner_id (fun s => s + new.file_size)
    else p

/-- `UPDATE public.files SET ... WHERE id = i`, with the
`on_file_storage_change` AFTER UPDATE trigger applied to the affected row.
When no row matches, the statement affects nothing and no trigger fires. -/
def updateFileDB (i : Nat) (u : FileRec → FileRec) (db : DB) : DB :=
  match db.files.find? (fun g => g.id == i) with
  | none => db
  | some old =>
      { db with
        files := db.files.map (fun g => if g.id == i then u g else g)
        profiles := triggerUpdate old (u old) db.profiles }

/-- The raw file-table mutations the `on_file_storage_change` trigger reacts
to: insert, permanent delete, soft-delete, restore, size change, owner
transfer. -/
inductive FileMut where
  | ins (f : FileRec)
  | del (fid : Nat)
  | sdel (fid : Nat) (t : Nat)
  | restore (fid : Nat)
  | resize (fid : Nat) (sz : Int)
  | chown (fid : Nat) (a : Nat)
  deriving Repr, DecidableEq

/-- Apply one file-table mutation together with its trigger action.
An insert whose id already exists violates the primary key: the transaction
aborts and the state is unchanged.  Updates/deletes of a missing id affect
no row and fire no trigger. -/
def applyMut (m : FileMut) (db : DB) : DB :=
  match m with
  | .ins f =>
      if db.files.any (fun g => g.id == f.id) then db
      else { db with files := f :: db.files, profiles := triggerInsert f db.profiles }
  | .del i =>
      match db.files.find? (fun g => g.id == i) with
      | none => db
      | some old =>
          { db with
            files := db.files.filter (fun g => !(g.id == i))
            profiles := triggerDelete old db.profiles }
  | .sdel i t => updateFileDB i (fun f => { f with is_deleted := some true, deleted_at := some t }) db
  | .restore i => updateFileDB i (fun f => { f with is_deleted := some false, deleted_at := none }) db
  | .resize i sz => updateFileDB i (fun f => { f with file_size := sz }) db
  | .chown i a => updateFileDB i (fun f => { f with owner_id := a }) db

/-- Replay a sequence of mutations in order. -/
def applyMuts (ms : List FileMut) (db : DB) : DB :=
  ms.foldl (fun s m => applyMut m s) db

/-- Well-formed mutation: sizes written to `file_size` are non-negative
(the spec's FileRecord invariant: size is non-negative). -/
def mutWF (m : FileMut) : Prop :=
  match m with
  | .ins f => 0 ≤ f.file_size
  | .resize _ sz => 0 ≤ sz
  | _ => True

instance (m : FileMut) : Decidable (mutWF m) := by
  cases m <;> simp [mutWF] <;> infer_instance

/-- Contribution of one file row to an account's recomputed usage. -/
def contrib (a : Nat) (f : FileRec) : Int :=
  if f.owner_id = a ∧ counted f then f.file_size else 0

/-- `Σ file_size` over the account's non-deleted files: the recomputation the
ledger is supposed to track. -/
def ledgerSum (a : Nat) (fs : List FileRec) : Int :=
  (fs.map (contrib a)).sum

/-- The files table has no duplicate primary keys and only non-negative
sizes. -/
def WFdb (db : DB) : Prop :=
  (db.files.map FileRec.id).Nodup ∧ ∀ f ∈ db.files, 0 ≤ f.file_size

/-- The accounting invariant: every account's ledger equals the
recomputation over its non-deleted files. -/
def LedgerInv (db : DB) : Prop :=
  ∀ a, db.profiles a = ledgerSum a db.files

/-! ### Lemmas about the trigger arithmetic -/

theorem updProfile_eval (p : Nat → Int) (w : Nat) (g : Int → Int) (x : Nat) :
    updProfile p w g x = if x = w then g (p x) else p x := rfl

/-! ### Lemmas about the recomputed sum -/

theorem contrib_of_not_counted (a : Nat) (f : FileRec) (h : counted f = false) :
    contrib a f = 0 := by
  simp [contrib, h]

theorem contrib_of_owner_ne (a : Nat) (f : FileRec) (h : ¬ f.owner_id = a) :
    contrib a f = 0 := by
  simp [contrib, h]

theorem contrib_of_match (a : Nat) (f : FileRec) (ho : f.owner_id = a)
    (hc : counted f = true) : contrib a f = f.file_size := by
  simp [contrib, ho, hc]

theorem contrib_nonneg (a : Nat) (f : FileRec) (h : 0 ≤ f.file_size) :
    0 ≤ contrib a f := by
  unfold contrib
  split <;> simp [h]

theorem ledgerSum_nil (a : Nat) : ledgerSum a [] = 0 := rfl

theorem ledgerSum_cons (a : Nat) (f : FileRec) (fs : List FileRec) :
    ledgerSum a (f :: fs) = contrib a f + ledgerSum a fs := by
  simp [ledgerSum]

theorem ledgerSum_nonneg (a : Nat) (fs : List FileRec)
    (h : ∀ f ∈ fs, 0 ≤ f.file_size) : 0 ≤ ledgerSum a fs := by
  induction fs with
  | nil => simp [ledgerSum]
  | cons g t ih =>
      rw [ledgerSum_cons]
      have h1 := contrib_nonneg a g (h g (List.mem_cons_self _ _))
      have h2 := ih (fun f hf => h f (List.mem_cons_of_mem _ hf))
      linarith

theorem map_upd_of_no_match (i : Nat) (u : FileRec → FileRec)
    (t : List FileRec) (h : ∀ g ∈ t, ¬ g.id = i) :
    t.map (fun g => if g.id == i then u g else g) = t := by
  induction t with
  | nil => rfl
  | cons g s ih =>
      have hg : (g.id == i) = false := by
        simpa using h g (List.mem_cons_self _ _)
      simp only [List.map_cons, hg, Bool.false_eq_true, if_false,
        ih (fun x hx => h x (List.mem_cons_of_mem _ hx))]

theorem filter_of_no_match (i : Nat) (t : List FileRec)
    (h : ∀ g ∈ t, ¬ g.id = i) :
    t.filter (fun g => !(g.id == i)) = t := by
  induction t with
  | nil => rfl
  | cons g s ih =>
      have hg : (g.id == i) = false := by
        simpa using h g (List.mem_cons_self _ _)
      simp only [List.filter_cons, hg, Bool.not_false, if_true,
        ih (fun x hx => h x (List.mem_cons_of_mem _ hx))]

theorem no_match_of_nodup (i : Nat) (g : FileRec) (t : List FileRec)
    (hnd : ((g :: t).map FileRec.id).Nodup) (hg : g.id = i) :
    ∀ x ∈ t, ¬ x.id = i := by
  intro x hx he
  rw [List.map_cons, List.nodup_cons] at hnd
  exact hnd.1 (by rw [hg, ← he]; exact List.mem_map_of_mem _ hx)

theorem nodup_tail_ids (g : FileRec) (t : List FileRec)
    (hnd : ((g :: t).map FileRec.id).Nodup) : (t.map FileRec.id).Nodup := by
  rw [List.map_cons, List.nodup_cons] at hnd
  exact hnd.2

theorem ledgerSum_filter (a i : Nat) (f : FileRec) (fs : List FileRec)
    (hnd : (fs.map FileRec.id).Nodup)
    (hf : fs.find? (fun g => g.id == i) = some f) :
    ledgerSum a (fs.filter (fun g => !(g.id == i)))
      = ledgerSum a fs - contrib a f := by
  induction fs with
  | nil => simp at hf
  | cons g t ih =>
      by_cases hg : g.id = i
      · have hgb : (g.id == i) = true := by simpa using hg
        simp only [List.find?_cons, hgb] at hf
        have hfg : g = f := Option.some_inj.mp hf
        subst hfg
        have ht := filter_of_no_match i t (no_match_of_nodup i g t hnd hg)
        simp only [List.filter_cons, hgb, Bool.not_true, Bool.false_eq_true,
          if_false, ht, ledgerSum_cons]
        omega
      · have hgb' : (g.id == i) = false := by simpa using hg
        simp only [List.find?_cons, hgb'] at hf
        have := ih (nodup_tail_ids g t hnd) hf
        simp only [List.filter_cons, hgb', Bool.not_false, if_true,
          ledgerSum_cons, this]
        omega

theorem ledgerSum_map_upd (a i : Nat) (u : FileRec → FileRec) (f : FileRec)
    (fs : List FileRec) (hnd : (fs.map FileRec.id).Nodup)
    (hf : fs.find? (fun g => g.id == i) = some f) :
    ledgerSum a (fs.map (fun g => if g.id == i then u g else g))
      = ledgerSum a fs - contrib a f + contrib a (u f) := by
  induction fs with
  | nil => simp at hf
  | cons g t ih =>
      by_cases hg : g.id = i
      · have hgb : (g.id == i) = true := by simpa using hg
        simp only [List.find?_cons, hgb] at hf
        have hfg : g = f := Option.some_inj.mp hf
        subst hfg
        have ht := map_upd_of_no_match i u t (no_match_of_nodup i g t hnd hg)
        simp only [List.map_cons, hgb, if_true, ht, ledgerSum_cons]
        omega
      · have hgb' : (g.id == i) = false := by simpa using hg
        simp only [List.find?_cons, hgb'] at hf
        have := ih (nodup_tail_ids g t hnd) hf
        simp only [List.map_cons, hgb', Bool.false_eq_true, if_false,
          ledgerSum_cons, this]
        omega

theorem contrib_le_ledgerSum (a i : Nat) (f : FileRec) (fs : List FileRec)
    (hnd : (fs.map FileRec.id).Nodup)
    (hf : fs.find? (fun g => g.id == i) = some f)
    (hsz : ∀ g ∈ fs, 0 ≤ g.file_size) : contrib a f ≤ ledgerSum a fs := by
  have h1 := ledgerSum_filter a i f fs hnd hf
  have h2 : 0 ≤ ledgerSum a (fs.filter (fun g => !(g.id == i))) :=
    ledgerSum_nonneg _ _ (fun g hg => hsz g (List.mem_of_mem_filter hg))
  omega

theorem find?_map_upd (i : Nat) (u : FileRec → FileRec) (f : FileRec)
    (fs : List FileRec) (hid : ∀ g, (u g).id = g.id)
    (hf : fs.find? (fun g => g.id == i) = some f) :
    (fs.map (fun g => if g.id == i then u g else g)).find?
      (fun g => g.id == i) = some (u f) := by
  induction fs with
  | nil => simp at hf
  | cons g t ih =>
      by_cases hg : g.id = i
      · have hgb : (g.id == i) = true := by simpa using hg
        have hub : ((u g).id == i) = true := by simpa [hid g] using hg
        simp only [List.find?_cons, hgb] at hf
        have hfg : g = f := Option.some_inj.mp hf
        subst hfg
        simp only [List.map_cons, hgb, if_true, List.find?_cons, hub]
      · have hgb' : (g.id == i) = false := by simpa using hg
        simp only [List.find?_cons, hgb'] at hf
        simp only [List.map_cons, hgb', Bool.false_eq_true, if_false,
          List.find?_cons]
        exact ih hf

/-! ### Each trigger branch realises the correct ledger delta -/

theorem triggerInsert_ledger (f : FileRec) (fs : List FileRec) (p : Nat → Int)
    (a : Nat) (hinv : ∀ x, p x = ledgerSum x fs) :
    triggerInsert f p a = ledgerSum a (f :: fs) := by
  rw [ledgerSum_cons]
  unfold triggerInsert
  by_cases kf : counted f = true
  · rw [if_pos kf, updProfile_eval]
    by_cases haw : a = f.owner_id
    · rw [if_pos haw, hinv a, contrib_of_match a f haw.symm kf]
      ring
    · rw [if_neg haw, hinv a, contrib_of_owner_ne a f (fun h => haw h.symm)]
      ring
  · rw [if_neg kf, hinv a, contrib_of_not_counted a f (by simpa using kf)]
    ring

theorem triggerDelete_ledger (old : FileRec) (fs : List FileRec) (p : Nat → Int)
    (a : Nat) (hnd : (fs.map FileRec.id).Nodup)
    (hfind : fs.find? (fun g => g.id == old.id) = some old)
    (hsz : ∀ g ∈ fs, 0 ≤ g.file_size) (hinv : ∀ x, p x = ledgerSum x fs) :
    triggerDelete old p a = ledgerSum a (fs.filter (fun g => !(g.id == old.id))) := by
  rw [ledgerSum_filter a old.id old fs hnd hfind]
  unfold triggerDelete
  by_cases ko : counted old = true
  · rw [if_pos ko, updProfile_eval]
    by_cases hao : a = old.owner_id
    · rw [if_pos hao, hinv a]
      have hle := contrib_le_ledgerSum a old.id old fs hnd hfind hsz
      rw [contrib_of_match a old hao.symm ko] at hle ⊢
      omega
    · rw [if_neg hao, hinv a, contrib_of_owner_ne a old (fun h => hao h.symm)]
      ring
  · rw [if_neg ko, hinv a, contrib_of_not_counted a old (by simpa using ko)]
    ring

theorem triggerUpdate_ledger (old new : FileRec) (fs : List FileRec)
    (p : Nat → Int) (a : Nat) (hnd : (fs.map FileRec.id).Nodup)
    (hfind : fs.find? (fun g => g.id == old.id) = some old)
    (hsz : ∀ g ∈ fs, 0 ≤ g.file_size) (hinv : ∀ x, p x = ledgerSum x fs) :
    triggerUpdate old new p a
      = ledgerSum a fs - contrib a old + contrib a new := by
  have hle : ∀ x, contrib x old ≤ ledgerSum x fs := fun x =>
    contrib_le_ledgerSum x old.id old fs hnd hfind hsz
  simp only [triggerUpdate]
  by_cases how : new.owner_id = old.owner_id
  · -- owner unchanged: ELSE branch of the owner test
    rw [if_neg (not_not_intro how)]
    by_cases ko : counted old = true
    · by_cases kn : counted new = true
      · rw [if_pos ⟨ko, kn⟩]
        by_cases hsz2 : new.file_size = old.file_size
        · rw [if_neg (not_not_intro hsz2), hinv a]
          by_cases haw : old.owner_id = a
          · rw [contrib_of_match a old haw ko,
              contrib_of_match a new (how.trans haw) kn, hsz2]
            ring
          · rw [contrib_of_owner_ne a old haw,
              contrib_of_owner_ne a new (fun h => haw (how.symm ▸ h))]
            ring
        · rw [if_pos hsz2, updProfile_eval]
          by_cases haw : a = new.owner_id
          · rw [if_pos haw, hinv a,
              contrib_of_match a old ((haw.trans how).symm) ko,
              contrib_of_match a new haw.symm kn]
            ring
          · rw [if_neg haw, hinv a,
              contrib_of_owner_ne a old (fun h => haw (how.trans h).symm),
              contrib_of_owner_ne a new (fun h => haw h.symm)]
            ring
      · rw [if_neg (fun h => kn h.2), if_pos ⟨ko, kn⟩, updProfile_eval]
        by_cases haw : a = new.owner_id
        · rw [if_pos haw, hinv a,
            contrib_of_match a old ((haw.trans how).symm) ko,
            contrib_of_not_counted a new (by simpa using kn)]
          have := hle a
          rw [contrib_of_match a old ((haw.trans how).symm) ko] at this
          omega
        · rw [if_neg haw, hinv a,
            contrib_of_owner_ne a old (fun h => haw (how.trans h).symm),
            contrib_of_not_counted a new (by simpa using kn)]
          ring
    · by_cases kn : counted new = true
      · rw [if_neg (fun h => ko h.1), if_neg (fun h => ko h.1),
          if_pos ⟨ko, kn⟩, updProfile_eval]
        by_cases haw : a = new.owner_id
        · rw [if_pos haw, hinv a,
            contrib_of_not_counted a old (by simpa using ko),
            contrib_of_match a new haw.symm kn]
          ring
        · rw [if_neg haw, hinv a,
            contrib_of_not_counted a old (by simpa using ko),
            contrib_of_owner_ne a new (fun h => haw h.symm)]
          ring
      · rw [if_neg (fun h => ko h.1), if_neg (fun h => ko h.1),
          if_neg (fun h => kn h.2), hinv a,
          contrib_of_not_counted a old (by simpa using ko),
          contrib_of_not_counted a new (by simpa using kn)]
        ring
  · -- owner changed
    rw [if_pos how]
    by_cases kn : counted new = true
    · rw [if_pos kn]
      by_cases ko : counted old = true
      · rw [if_pos ko, updProfile_eval, updProfile_eval]
        by_cases han : a = new.owner_id
        · have han' : ¬ a = old.owner_id := fun h => how (han.symm.trans h)
          rw [if_pos han, if_neg han', hinv a,
            contrib_of_owner_ne a old (fun h => han' h.symm),
            contrib_of_match a new han.symm kn]
          ring
        · rw [if_neg han]
          by_cases hao : a = old.owner_id
          · rw [if_pos hao, hinv a, contrib_of_match a old hao.symm ko,
              contrib_of_owner_ne a new (fun h => han h.symm)]
            have := hle a
            rw [contrib_of_match a old hao.symm ko] at this
            omega
          · rw [if_neg hao, hinv a,
              contrib_of_owner_ne a old (fun h => hao h.symm),
              contrib_of_owner_ne a new (fun h => han h.symm)]
            ring
      · rw [if_neg ko, updProfile_eval]
        by_cases han : a = new.owner_id
        · rw [if_pos han, hinv a,
            contrib_of_not_counted a old (by simpa using ko),
            contrib_of_match a new han.symm kn]
          ring
        · rw [if_neg han, hinv a,
            contrib_of_not_counted a old (by simpa using ko),
            contrib_of_owner_ne a new (fun h => han h.symm)]
          ring
    · rw [if_neg kn]
      by_cases ko : counted old = true
      · rw [if_pos ko, updProfile_eval]
        by_cases hao : a = old.owner_id
        · rw [if_pos hao, hinv a, contrib_of_match a old hao.symm ko,
            contrib_of_not_counted a new (by simpa using kn)]
          have := hle a
          rw [contrib_of_match a old hao.symm ko] at this
          omega
        · rw [if_neg hao, hinv a,
            contrib_of_owner_ne a old (fun h => hao h.symm),
            contrib_of_not_counted a new (by simpa using kn)]
          ring
      · rw [if_neg ko, hinv a,
          contrib_of_not_counted a old (by simpa using ko),
          contrib_of_not_counted a new (by simpa using kn)]
        ring

/-! ### Preservation of well-formedness and the ledger invariant -/

theorem nodup_map_upd (i : Nat) (u : FileRec → FileRec) (fs : List FileRec)
    (hid : ∀ g, (u g).id = g.id) (hnd : (fs.map FileRec.id).Nodup) :
    ((fs.map (fun g => if g.id == i then u g else g)).map FileRec.id).Nodup := by
  rw [List.map_map]
  have h : ∀ g ∈ fs,
      (FileRec.id ∘ fun g => if g.id == i then u g else g) g = FileRec.id g := by
    intro g _
    by_cases h : (g.id == i) = true
    · simp [Function.comp, h, hid g]
    · simp [Function.comp, h]
  rw [List.map_congr_left h]
  exact hnd

theorem sizes_map_upd (i : Nat) (u : FileRec → FileRec) (fs : List FileRec)
    (hsz : ∀ g ∈ fs, 0 ≤ g.file_size)
    (husz : ∀ g ∈ fs, 0 ≤ (u g).file_size) :
    ∀ f ∈ fs.map (fun g => if g.id == i then u g else g), 0 ≤ f.file_size := by
  intro f hf
  obtain ⟨g, hg, rfl⟩ := List.mem_map.mp hf
  by_cases h : (g.id == i) = true
  · rw [if_pos h]; exact husz g hg
  · rw [if_neg h]; exact hsz g hg

theorem applyUpd_preserves (i : Nat) (u : FileRec → FileRec) (db : DB)
    (hid : ∀ g, (u g).id = g.id)
    (husz : ∀ g ∈ db.files, 0 ≤ (u g).file_size)
    (hwf : WFdb db) (hinv : LedgerInv db) :
    WFdb (updateFileDB i u db) ∧ LedgerInv (updateFileDB i u db) := by
  obtain ⟨hnd, hsz⟩ := hwf
  simp only [updateFileDB]
  cases hfind : db.files.find? (fun g => g.id == i) with
  | none => exact ⟨⟨hnd, hsz⟩, hinv⟩
  | some old =>
      have hoi : old.id = i := by simpa using List.find?_some hfind
      subst hoi
      refine ⟨⟨nodup_map_upd _ u _ hid hnd, sizes_map_upd _ u _ hsz husz⟩, ?_⟩
      intro a
      show triggerUpdate old (u old) db.profiles a = _
      rw [ledgerSum_map_upd a old.id u old db.files hnd hfind]
      exact triggerUpdate_ledger old (u old) db.files db.profiles a hnd hfind hsz hinv

theorem applyMut_preserves (m : FileMut) (db : DB) (hwf : WFdb db)
    (hm : mutWF m) (hinv : LedgerInv db) :
    WFdb (applyMut m db) ∧ LedgerInv (applyMut m db) := by
  obtain ⟨hnd, hsz⟩ := hwf
  cases m with
  | ins f =>
      simp only [applyMut]
      by_cases hany : db.files.any (fun g => g.id == f.id) = true
      · rw [if_pos hany]; exact ⟨⟨hnd, hsz⟩, hinv⟩
      · rw [if_neg hany]
        refine ⟨⟨?_, ?_⟩, ?_⟩
        · rw [List.map_cons, List.nodup_cons]
          refine ⟨fun hmem => ?_, hnd⟩
          obtain ⟨g, hg, hgid⟩ := List.mem_map.mp hmem
          exact hany (List.any_eq_true.mpr ⟨g, hg, by simpa using hgid⟩)
        · intro x hx
          rcases List.mem_cons.mp hx with h | h
          · subst h; exact hm
          · exact hsz x h
        · intro a
          exact triggerInsert_ledger f db.files db.profiles a hinv
  | del i =>
      simp only [applyMut]
      cases hfind : db.files.find? (fun g => g.id == i) with
      | none => exact ⟨⟨hnd, hsz⟩, hinv⟩
      | some old =>
          have hoi : old.id = i := by simpa using List.find?_some hfind
          subst hoi
          refine ⟨⟨?_, ?_⟩, ?_⟩
          · exact List.Nodup.sublist
              (List.Sublist.map FileRec.id (List.filter_sublist db.files)) hnd
          · intro x hx; exact hsz x (List.mem_of_mem_filter hx)
          · intro a
            exact triggerDelete_ledger old db.files db.profiles a hnd hfind hsz hinv
  | sdel i t =>
      exact applyUpd_preserves i _ db (fun g => rfl) (fun g hg => hsz g hg)
        ⟨hnd, hsz⟩ hinv
  | restore i =>
      exact applyUpd_preserves i _ db (fun g => rfl) (fun g hg => hsz g hg)
        ⟨hnd, hsz⟩ hinv
  | resize i sz =>
      exact applyUpd_preserves i _ db (fun g => rfl) (fun g _ => hm)
        ⟨hnd, hsz⟩ hinv
  | chown i a =>
      exact applyUpd_preserves i _ db (fun g => rfl) (fun g hg => hsz g hg)
        ⟨hnd, hsz⟩ hinv

theorem applyMuts_preserves (ms : List FileMut) (db : DB) (hwf : WFdb db)
    (hms : ∀ m ∈ ms, mutWF m) (hinv : LedgerInv db) :
    WFdb (applyMuts ms db) ∧ LedgerInv (applyMuts ms db) := by
  induction ms generalizing db with
  | nil => exact ⟨hwf, hinv⟩
  | cons m t ih =>
      have h1 := applyMut_preserves m db hwf (hms m (List.mem_cons_self _ _)) hinv
      exact ih (applyMut m db) h1.1 (fun x hx => hms x (List.mem_cons_of_mem _ hx)) h1.2

/-! ### Share-link redemption (`get_file_by_token`, source lines 269-318)

An uncaught `RAISE EXCEPTION` in PL/pgSQL aborts the enclosing transaction
(there is no `EXCEPTION` handler in the function), so no statement the
function executed before the error survives; every error path therefore
returns the input state. -/

inductive RedeemError where
  | invalidToken
  | expired
  | invalidPassword
  | limitReached
  | fileUnavailable
  deriving Repr, DecidableEq

/-- The row type `get_file_by_token` RETURNS. -/
structure FileMeta where
  file_id : Nat
  file_path : String
  file_name : String
  original_name : String
  file_type : String
  deriving Repr, DecidableEq

/-- `sl.expires_at IS NOT NULL AND sl.expires_at < NOW()` (line 290). -/
def isExpired (sl : ShareLink) (now : Nat) : Bool :=
  match sl.expires_at with
  | some e => decide (e < now)
  | none => false

/-- `sl.password IS NOT NULL AND sl.password <> p_password` (line 294).
SQL three-valued logic: when `p_password` is NULL, `sl.password <> p_password`
evaluates to NULL, the conjunction is NULL, and the `IF` is NOT taken —
a caller that supplies no password at all passes this guard. -/
def pwMismatch (sl : ShareLink) (ppw : Option String) : Bool :=
  match sl.password, ppw with
  | some lp, some cp => lp != cp
  | _, _ => false

/-- `sl.download_limit IS NOT NULL AND sl.download_count >= sl.download_limit`
(line 298). -/
def limitHit (sl : ShareLink) : Bool :=
  match sl.download_limit with
  | some dl => decide (dl ≤ sl.download_count)
  | none => false

/-- Lines 280-300: look up the token among active links
(`WHERE token = p_token AND is_active = TRUE LIMIT 1`), then the three
ordered guards, each raising a distinct error. -/
def redeemGuards (ptoken : String) (ppw : Option String) (now : Nat)
    (links : List ShareLink) : Except RedeemError ShareLink :=
  match links.find? (fun sl => sl.token == ptoken && sl.is_active) with
  | none => .error .invalidToken
  | some sl =>
      if isExpired sl now then .error .expired
      else if pwMismatch sl ppw then .error .invalidPassword
      else if limitHit sl then .error .limitReached
      else .ok sl

/-- `UPDATE share_links SET download_count = download_count + 1 WHERE id = lid`
(lines 303-305). -/
def incrementLink (lid : Nat) (links : List ShareLink) : List ShareLink :=
  links.map (fun l =>
    if l.id == lid then { l with download_count := l.download_count + 1 } else l)

/-- Lines 302-317: increment the count, then resolve the bound file
(`WHERE f.id = sl.file_id AND NOT COALESCE(f.is_deleted, FALSE)`); if no row
is found, `RAISE 'File not available'` aborts the transaction, undoing the
increment. -/
def redeemCommit (sl : ShareLink) (db : DB) : Except RedeemError FileMeta × DB :=
  match db.files.find? (fun f => f.id == sl.file_id && counted f) with
  | some f =>
      (.ok ⟨f.id, f.file_path, f.name, f.original_name, f.file_type⟩,
       { db with links := incrementLink sl.id db.links })
  | none => (.error .fileUnavailable, db)

/-- `public.get_file_by_token(p_token, p_password DEFAULT NULL)`. -/
def get_file_by_token (ptoken : String) (ppw : Option String) (now : Nat)
    (db : DB) : Except RedeemError FileMeta × DB :=
  match redeemGuards ptoken ppw now db.links with
  | .error e => (.error e, db)
  | .ok sl => redeemCommit sl db

/-! ### Owner-checked RPCs (source lines 326-512) -/

inductive RpcError where
  | notFound
  | notAuthorized
  | uniqueViolation
  deriving Repr, DecidableEq

/-- The row type `create_share_link` RETURNS. -/
structure ShareRes where
  share_id : Nat
  token : String
  expires_at : Option Nat
  deriving Repr, DecidableEq

/-- `public.create_share_link` (lines 326-367).  `gen_token` (the hex
rendering of `gen_random_bytes(6)`) and the new row's `gen_random_uuid()` id
are external random inputs, passed as `genToken` / `newId`.  The generation
happens once — there is no retry loop; the `UNIQUE` constraint on
`share_links.token` makes a colliding INSERT raise `unique_violation`, which
aborts the transaction. -/
def create_share_link (uid pFileId : Nat) (pExpiresHours : Option Nat)
    (pPassword : Option String) (pDownloadLimit : Option Int)
    (genToken : String) (newId : Nat) (now : Nat) (db : DB) :
    Except RpcError ShareRes × DB :=
  match db.files.find? (fun g => g.id == pFileId) with
  | none => (.error .notFound, db)
  | some f =>
      if f.owner_id ≠ uid then (.error .notAuthorized, db)
      else if db.links.any (fun l => l.token == genToken) then
        (.error .uniqueViolation, db)
      else
        (.ok ⟨newId, genToken, pExpiresHours.map (fun h => now + h)⟩,
         { db with links :=
            ⟨newId, pFileId, genToken, pPassword,
             pExpiresHours.map (fun h => now + h),
             pDownloadLimit, 0, uid, true⟩ :: db.links })

/-- `public.rename_file` (lines 372-398).  The UPDATE fires the storage
trigger (a no-op adjustment, but modelled faithfully via `updateFileDB`). -/
def rename_file (uid fid : Nat) (pNewName : String) (pNewOrig : Option String)
    (db : DB) : Except RpcError (Nat × String) × DB :=
  match db.files.find? (fun g => g.id == fid) with
  | none => (.error .notFound, db)
  | some f =>
      if f.owner_id ≠ uid then (.error .notAuthorized, db)
      else (.ok (fid, pNewName),
        updateFileDB fid
          (fun g => { g with name := pNewName,
                             original_name := pNewOrig.getD g.original_name }) db)

/-- `public.soft_delete_file` (lines 403-429); `t` is `NOW()`. -/
def soft_delete_file (uid fid t : Nat) (db : DB) :
    Except RpcError (Nat × String) × DB :=
  match db.files.find? (fun g => g.id == fid) with
  | none => (.error .notFound, db)
  | some f =>
      if f.owner_id ≠ uid then (.error .notAuthorized, db)
      else (.ok (fid, f.file_path),
        updateFileDB fid
          (fun g => { g with is_deleted := some true, deleted_at := some t }) db)

/-- `public.restore_file` (lines 433-459). -/
def restore_file (uid fid : Nat) (db : DB) : Except RpcError Nat × DB :=
  match db.files.find? (fun g => g.id == fid) with
  | none => (.error .notFound, db)
  | some f =>
      if f.owner_id ≠ uid then (.error .notAuthorized, db)
      else (.ok fid,
        updateFileDB fid
          (fun g => { g with is_deleted := some false, deleted_at := none }) db)

/-- `public.permanently_delete_file` (lines 464-489): DELETE plus the
storage trigger's DELETE branch. -/
def permanently_delete_file (uid fid : Nat) (db : DB) :
    Except RpcError (Nat × String) × DB :=
  match db.files.find? (fun g => g.id == fid) with
  | none => (.error .notFound, db)
  | some f =>
      if f.owner_id ≠ uid then (.error .notAuthorized, db)
      else (.ok (fid, f.file_path),
        { db with files := db.files.filter (fun g => !(g.id == fid)),
                  profiles := triggerDelete f db.profiles })

/-! ### `public.list_files` (source lines 515-538) -/

/-- `ORDER BY created_at DESC`. -/
def createdDescRel (a b : FileRec) : Prop := b.created_at ≤ a.created_at

instance : DecidableRel createdDescRel := fun _ _ => Nat.decLe _ _

instance : IsTotal FileRec createdDescRel :=
  ⟨fun a b => Nat.le_total b.created_at a.created_at⟩

instance : IsTrans FileRec createdDescRel :=
  ⟨fun _ _ _ hab hbc => Nat.le_trans hbc hab⟩

/-- The WHERE clause of `list_files`:
`owner_id = uid AND ((p_folder_id IS NULL AND folder_id IS NULL) OR
(p_folder_id IS NOT NULL AND folder_id = p_folder_id)) AND
(p_include_deleted OR NOT COALESCE(is_deleted, FALSE))`. -/
def listPred (uid : Nat) (pFolderId : Option Nat) (pIncludeDeleted : Bool)
    (f : FileRec) : Bool :=
  (f.owner_id == uid) &&
  (match pFolderId, f.folder_id with
   | none, none => true
   | none, some _ => false
   | some pf, some ff => pf == ff
   | some _, none => false) &&
  (pIncludeDeleted || counted f)

/-- `public.list_files`.  SQL fixes only that the result is sorted by
`created_at DESC` (ties in unspecified order); we use insertion sort as one
faithful implementation, then `OFFSET`/`LIMIT`. -/
def list_files (uid : Nat) (pFolderId : Option Nat) (pLimit pOffset : Nat)
    (pIncludeDeleted : Bool) (fs : List FileRec) : List FileRec :=
  ((List.insertionSort createdDescRel
      (fs.filter (listPred uid pFolderId pIncludeDeleted))).drop
    pOffset).take pLimit

/-! ### Pointwise branch characterisations of the UPDATE trigger -/

theorem triggerUpdate_subtract_case (old new : FileRec) (p : Nat → Int)
    (hsame : new.owner_id = old.owner_id)
    (hko : counted old = true) (hkn : counted new = false) :
    triggerUpdate old new p
      = updProfile p new.owner_id (fun s => max 0 (s - old.file_size)) := by
  simp only [triggerUpdate]
  rw [if_neg (not_not_intro hsame), if_neg (fun h => by simp [hkn] at h),
    if_pos ⟨hko, by simp [hkn]⟩]

theorem triggerUpdate_add_case (old new : FileRec) (p : Nat → Int)
    (hsame : new.owner_id = old.owner_id)
    (hko : counted old = false) (hkn : counted new = true) :
    triggerUpdate old new p
      = updProfile p new.owner_id (fun s => s + new.file_size) := by
  simp only [triggerUpdate]
  rw [if_neg (not_not_intro hsame), if_neg (fun h => by simp [hko] at h),
    if_neg (fun h => by simp [hko] at h), if_pos ⟨by simp [hko], hkn⟩]

theorem triggerUpdate_nonneg (old new : FileRec) (p : Nat → Int)
    (hp : ∀ x, 0 ≤ p x) (hn : 0 ≤ new.file_size)
    (hss : new.file_size = old.file_size) :
    ∀ x, 0 ≤ triggerUpdate old new p x := by
  intro x
  have h1 := hp x
  simp only [triggerUpdate]
  by_cases how : new.owner_id = old.owner_id
  · rw [if_neg (not_not_intro how)]
    by_cases ko : counted old = true
    · by_cases kn : counted new = true
      · rw [if_pos ⟨ko, kn⟩, if_neg (not_not_intro hss)]
        exact h1
      · rw [if_neg (fun h => kn h.2), if_pos ⟨ko, kn⟩, updProfile_eval]
        split_ifs <;> omega
    · by_cases kn : counted new = true
      · rw [if_neg (fun h => ko h.1), if_neg (fun h => ko h.1),
          if_pos ⟨ko, kn⟩, updProfile_eval]
        split_ifs <;> omega
      · rw [if_neg (fun h => ko h.1), if_neg (fun h => ko h.1),
          if_neg (fun h => kn h.2)]
        exact h1
  · rw [if_pos how]
    by_cases kn : counted new = true
    · rw [if_pos kn]
      by_cases ko : counted old = true
      · rw [if_pos ko]
        simp only [updProfile_eval]
        split_ifs <;> omega
      · rw [if_neg ko, updProfile_eval]
        split_ifs <;> omega
    · rw [if_neg kn]
      by_cases ko : counted old = true
      · rw [if_pos ko, updProfile_eval]
        split_ifs <;> omega
      · rw [if_neg ko]
        exact h1

/-! ### Claims about the Usage Accountant (C1, C2, C9) -/

/-- C1: for every sequence of file-record insert, permanent delete,
soft-delete, restore, size change, and owner transfer applied through the
storage-accounting trigger, each account's `storage_used` equals the sum of
`file_size` over that account's files whose `is_deleted` flag is not set
(ledger equals recomputation), starting from a state where the invariant
holds.  Well-formedness (`WFdb`: distinct primary keys, non-negative sizes,
per the spec's FileRecord invariant) is assumed of the start state and of
the sizes the mutations write. -/
theorem C1_ledger_equals_recomputation (ms : List FileMut) (db : DB)
    (hwf : WFdb db) (hms : ∀ m ∈ ms, mutWF m) (hinv : LedgerInv db) :
    LedgerInv (applyMuts ms db) :=
  (applyMuts_preserves ms db hwf hms hinv).2

def c1File : FileRec := ⟨1, "a", "a", "p", "t", 100, none, 1, some false, none, 0⟩

def c1Muts : List FileMut :=
  [FileMut.ins c1File, FileMut.sdel 1 5, FileMut.restore 1,
   FileMut.resize 1 70, FileMut.chown 1 2, FileMut.del 1]

def emptyDB : DB := ⟨[], [], fun _ => 0⟩

theorem C1_ledger_equals_recomputation_witness :
    WFdb emptyDB ∧
    (applyMuts c1Muts emptyDB).profiles 2 = ledgerSum 2 (applyMuts c1Muts emptyDB).files :=
  ⟨⟨by simp [emptyDB], by simp [emptyDB]⟩,
   C1_ledger_equals_recomputation c1Muts emptyDB
     ⟨by simp [emptyDB], by simp [emptyDB]⟩ (by decide) (fun a => rfl) 2⟩

/-- Recognise the same-owner size-change mutation. -/
def isResizeMut : FileMut → Bool
  | .resize _ _ => true
  | _ => false

def c2DB : DB := ⟨[⟨1, "a", "a", "p", "t", 100, none, 1, some false, none, 0⟩], [], fun _ => 0⟩

/-- C2 counterexample: the claim "every arithmetic adjustment is floored at
zero, so for every starting value of `storage_used` ... the resulting
`storage_used` is never negative" is false: starting from `storage_used = 0`
(a value below the true sum, as after an out-of-band correction), a single
same-owner size change 100 → 10 leaves the ledger at −90, because the delta
adjustment at source line 230 carries no `GREATEST(0, ...)` clamp. -/
theorem C2_counterexample :
    (applyMut (FileMut.resize 1 10) c2DB).profiles 1 = -90 ∧
    ¬ (0 ≤ (applyMut (FileMut.resize 1 10) c2DB).profiles 1) := by
  constructor <;> decide

/-- C2 amended: among the trigger's adjustments, all subtraction paths
(permanent delete, soft-delete, owner-transfer subtract) are floored at
zero, and every mutation OTHER than a same-owner size change keeps
`storage_used` non-negative from any non-negative start (with non-negative
file sizes); the size-change delta is the one unfloored adjustment and can
go negative (see the counterexample). -/
theorem C2_nonneg_except_resize (m : FileMut) (db : DB)
    (hp : ∀ x, 0 ≤ db.profiles x)
    (hsz : ∀ f ∈ db.files, 0 ≤ f.file_size)
    (hm : mutWF m) (hnr : isResizeMut m = false) :
    ∀ x, 0 ≤ (applyMut m db).profiles x := by
  intro x
  cases m with
  | ins f =>
      simp only [applyMut]
      by_cases hany : db.files.any (fun g => g.id == f.id) = true
      · rw [if_pos hany]; exact hp x
      · rw [if_neg hany]
        show 0 ≤ triggerInsert f db.profiles x
        have h1 := hp x
        have h2 : 0 ≤ f.file_size := hm
        simp only [triggerInsert]
        by_cases hc : counted f = true
        · rw [if_pos hc, updProfile_eval]
          split_ifs <;> omega
        · rw [if_neg hc]; exact h1
  | del i =>
      simp only [applyMut]
      cases hfind : db.files.find? (fun g => g.id == i) with
      | none => exact hp x
      | some old =>
          show 0 ≤ triggerDelete old db.profiles x
          have h1 := hp x
          simp only [triggerDelete]
          by_cases hc : counted old = true
          · rw [if_pos hc, updProfile_eval]
            split_ifs <;> omega
          · rw [if_neg hc]; exact h1
  | sdel i t =>
      simp only [applyMut, updateFileDB]
      cases hfind : db.files.find? (fun g => g.id == i) with
      | none => exact hp x
      | some old =>
          exact triggerUpdate_nonneg old
            { old with is_deleted := some true, deleted_at := some t } db.profiles hp
            (hsz old (List.mem_of_find?_eq_some hfind)) rfl x
  | restore i =>
      simp only [applyMut, updateFileDB]
      cases hfind : db.files.find? (fun g => g.id == i) with
      | none => exact hp x
      | some old =>
          exact triggerUpdate_nonneg old
            { old with is_deleted := some false, deleted_at := none } db.profiles hp
            (hsz old (List.mem_of_find?_eq_some hfind)) rfl x
  | resize i sz => simp [isResizeMut] at hnr
  | chown i a =>
      simp only [applyMut, updateFileDB]
      cases hfind : db.files.find? (fun g => g.id == i) with
      | none => exact hp x
      | some old =>
          exact triggerUpdate_nonneg old { old with owner_id := a } db.profiles hp
            (hsz old (List.mem_of_find?_eq_some hfind)) rfl x

theorem C2_nonneg_except_resize_witness :
    isResizeMut (FileMut.sdel 1 5) = false ∧
    0 ≤ (applyMut (FileMut.sdel 1 5) c2DB).profiles 1 :=
  ⟨rfl,
   C2_nonneg_except_resize (FileMut.sdel 1 5) c2DB (fun _ => le_refl 0)
     (by decide) trivial rfl 1⟩

/-- C9: for a non-soft-deleted file owned by an account, soft-delete
followed by restore leaves every account's `storage_used` exactly as it
was, provided the owner's ledger covers the file's size
(`file_size ≤ storage_used`, which holds whenever the accounting invariant
does): the subtract and the add cancel. -/
theorem C9_sdel_restore_roundtrip (i t : Nat) (db : DB) (f : FileRec)
    (hfind : db.files.find? (fun g => g.id == i) = some f)
    (hc : counted f = true)
    (hle : f.file_size ≤ db.profiles f.owner_id) :
    ∀ x, (applyMut (FileMut.restore i) (applyMut (FileMut.sdel i t) db)).profiles x
      = db.profiles x := by
  intro x
  have hfind1 := find?_map_upd i
    (fun g => { g with is_deleted := some true, deleted_at := some t }) f db.files
    (fun g => rfl) hfind
  simp only [applyMut, updateFileDB, hfind, hfind1]
  rw [triggerUpdate_subtract_case f
      { f with is_deleted := some true, deleted_at := some t } db.profiles rfl hc rfl,
    triggerUpdate_add_case { f with is_deleted := some true, deleted_at := some t }
      { f with is_deleted := some false, deleted_at := none } _ rfl rfl rfl]
  dsimp only [updProfile]
  by_cases hx : x = f.owner_id
  · subst hx
    simp only [if_pos rfl, if_true, eq_self_iff_true]
    omega
  · simp only [if_neg hx]

def c9DB : DB := ⟨[⟨1, "a", "a", "p", "t", 100, none, 1, some false, none, 0⟩], [], fun _ => 100⟩

theorem C9_sdel_restore_roundtrip_witness :
    counted ⟨1, "a", "a", "p", "t", 100, none, 1, some false, none, 0⟩ = true ∧
    (applyMut (FileMut.restore 1) (applyMut (FileMut.sdel 1 7) c9DB)).profiles 1 = 100 :=
  ⟨rfl,
   C9_sdel_restore_roundtrip 1 7 c9DB _ rfl rfl (by decide) 1⟩

/-! ### Claims about share-link redemption (C3, C4, C5, C8) -/

/-- C5: redemption evaluates its guards in a fixed source order, each a hard
stop with a distinct failure — no active link with the token →
`InvalidToken`; then `expires_at` set and in the past → `Expired`; then
password mismatch (in the code's sense: the caller supplied a password and
it differs — see C4 for the NULL-password case) → `InvalidPassword`; then
limit reached → `LimitReached` — and only after all guards pass is the
count incremented and the file resolved.  In particular an expired link
always fails with `Expired` regardless of the other guards. -/
theorem C5_guard_order (ptoken : String) (ppw : Option String) (now : Nat)
    (db : DB) :
    (db.links.find? (fun l => l.token == ptoken && l.is_active) = none →
       get_file_by_token ptoken ppw now db = (.error .invalidToken, db)) ∧
    (∀ sl, db.links.find? (fun l => l.token == ptoken && l.is_active) = some sl →
      (isExpired sl now = true →
         get_file_by_token ptoken ppw now db = (.error .expired, db)) ∧
      (isExpired sl now = false → pwMismatch sl ppw = true →
         get_file_by_token ptoken ppw now db = (.error .invalidPassword, db)) ∧
      (isExpired sl now = false → pwMismatch sl ppw = false → limitHit sl = true →
         get_file_by_token ptoken ppw now db = (.error .limitReached, db)) ∧
      (isExpired sl now = false → pwMismatch sl ppw = false → limitHit sl = false →
         ∀ f, db.files.find? (fun g => g.id == sl.file_id && counted g) = some f →
           get_file_by_token ptoken ppw now db =
             (.ok ⟨f.id, f.file_path, f.name, f.original_name, f.file_type⟩,
              { db with links := incrementLink sl.id db.links }))) := by
  constructor
  · intro h
    simp [get_file_by_token, redeemGuards, h]
  · intro sl hfind
    refine ⟨?_, ?_, ?_, ?_⟩
    · intro he
      simp [get_file_by_token, redeemGuards, hfind, he]
    · intro he hpw
      simp [get_file_by_token, redeemGuards, hfind, he, hpw]
    · intro he hpw hl
      simp [get_file_by_token, redeemGuards, hfind, he, hpw, hl]
    · intro he hpw hl f hf
      simp [get_file_by_token, redeemGuards, hfind, he, hpw, hl, redeemCommit, hf]

def c5Link : ShareLink := ⟨1, 5, "t", some "p", some 5, some 0, 0, 1, true⟩

def c5DB : DB :=
  ⟨[⟨5, "n", "o", "pa", "ty", 10, none, 1, some false, none, 0⟩], [c5Link], fun _ => 0⟩

theorem C5_guard_order_witness :
    isExpired c5Link 10 = true ∧
    get_file_by_token "t" (some "x") 10 c5DB = (.error .expired, c5DB) :=
  ⟨rfl, ((C5_guard_order "t" (some "x") 10 c5DB).2 c5Link rfl).1 rfl⟩

def c4DB : DB :=
  ⟨[⟨5, "n", "o", "pa", "ty", 10, none, 1, some false, none, 0⟩],
   [⟨1, 5, "t", some "secret", none, none, 0, 1, true⟩], fun _ => 0⟩

/-- C4 (code bug): the claim says a link with a password set must fail with
`InvalidPassword` for EVERY non-matching caller password, including a caller
that supplies no password at all.  The code violates this: with
`p_password` NULL the SQL condition `sl.password <> p_password` is NULL, the
guard at source line 294 is skipped, and the redemption SUCCEEDS — the
password protection is bypassed by simply omitting the password.  (A
genuinely mismatching non-null password does fail, third conjunct.) -/
theorem C4_null_password_bypass :
    (get_file_by_token "t" none 0 c4DB).1 = .ok ⟨5, "pa", "n", "o", "ty"⟩ ∧
    (get_file_by_token "t" none 0 c4DB).1 ≠ .error .invalidPassword ∧
    (get_file_by_token "t" (some "x") 0 c4DB).1 = .error .invalidPassword :=
  ⟨rfl, fun h => Except.noConfusion h, rfl⟩

def c8Link : ShareLink := ⟨1, 5, "t", none, none, some 1, 0, 1, true⟩

def c8DB : DB :=
  ⟨[⟨5, "n", "o", "pa", "ty", 10, none, 1, some true, some 3, 0⟩], [c8Link], fun _ => 0⟩

/-- C8 counterexample: the claim asserts that after a `FileUnavailable`
failure the increment "has already taken effect" and "the link's state
after the failure shows the incremented count".  False: the `RAISE` aborts
the transaction and rolls the increment back.  Here all guards pass, the
bound file is soft-deleted, redemption fails with `FileUnavailable`, and
the link's `download_count` afterwards is still 0, not 1. -/
theorem C8_counterexample :
    get_file_by_token "t" none 0 c8DB = (.error .fileUnavailable, c8DB) ∧
    (get_file_by_token "t" none 0 c8DB).2.links.map ShareLink.download_count = [0] ∧
    ¬ ((get_file_by_token "t" none 0 c8DB).2.links.map ShareLink.download_count = [1]) :=
  ⟨rfl, rfl, by decide⟩

/-- C8 amended: when the token, expiry, password and limit guards all pass
but the bound file is soft-deleted (no available row), redemption fails
with `FileUnavailable` and the already-executed `download_count` increment
is rolled back with the aborting transaction: the failed redemption does
NOT consume a use — the state is unchanged. -/
theorem C8_unavailable_rollback (ptoken : String) (ppw : Option String)
    (now : Nat) (db : DB) (sl : ShareLink)
    (hfind : db.links.find? (fun l => l.token == ptoken && l.is_active) = some sl)
    (he : isExpired sl now = false) (hpw : pwMismatch sl ppw = false)
    (hl : limitHit sl = false)
    (hf : db.files.find? (fun g => g.id == sl.file_id && counted g) = none) :
    get_file_by_token ptoken ppw now db = (.error .fileUnavailable, db) := by
  simp [get_file_by_token, redeemGuards, hfind, he, hpw, hl, redeemCommit, hf]

theorem C8_unavailable_rollback_witness :
    limitHit c8Link = false ∧
    get_file_by_token "t" none 0 c8DB = (.error .fileUnavailable, c8DB) :=
  ⟨rfl, C8_unavailable_rollback "t" none 0 c8DB c8Link rfl rfl rfl rfl rfl⟩

def c3Link : ShareLink := ⟨1, 5, "t", none, none, some 1, 0, 1, true⟩

def c3DB : DB :=
  ⟨[⟨5, "n", "o", "pa", "ty", 10, none, 1, some false, none, 0⟩], [c3Link], fun _ => 0⟩

/-- C3 (code bug): the claim requires the count-check-and-increment to be
serialized per ShareLink so that with `download_limit = 1` at most one of N
simultaneous redemptions succeeds.  The code's initial SELECT (line 280) is
a plain read — not `SELECT ... FOR UPDATE` — so under READ COMMITTED two
concurrent transactions can both run the guard phase against the same
committed snapshot (`download_count = 0`), then both run the
increment-and-resolve phase (serialized only by the row lock of the
UPDATE).  This theorem replays exactly that interleaving: both guard
evaluations pass, both commits succeed, and the final count is 2 on a link
with limit 1 — two successes, and the second limit check acted on a stale
count. -/
theorem C3_stale_limit_check_two_successes :
    redeemGuards "t" none 0 c3DB.links = .ok c3Link ∧
    c3Link.download_limit = some 1 ∧
    (redeemCommit c3Link c3DB).1 = .ok ⟨5, "pa", "n", "o", "ty"⟩ ∧
    (redeemCommit c3Link (redeemCommit c3Link c3DB).2).1 = .ok ⟨5, "pa", "n", "o", "ty"⟩ ∧
    (redeemCommit c3Link (redeemCommit c3Link c3DB).2).2.links.map
      ShareLink.download_count = [2] :=
  ⟨rfl, rfl, rfl, rfl, by decide⟩

/-! ### Claims about the owner-checked RPCs (C6, C7) -/

def c6DB : DB :=
  ⟨[⟨5, "n", "o", "pa", "ty", 10, none, 1, some false, none, 0⟩],
   [⟨1, 5, "abc", none, none, none, 0, 1, true⟩], fun _ => 0⟩

/-- C6 counterexample: the claim says that on a token collision
`create_share_link` retries generation and "never fails because the freshly
generated token already exists".  False: the function generates the token
once and has no retry loop; when the generated token ("abc") equals an
existing link's token, the INSERT violates the UNIQUE constraint and the
operation fails. -/
theorem C6_counterexample :
    (create_share_link 1 5 none none none "abc" 9 0 c6DB).1
      = .error .uniqueViolation := rfl

/-- C6 amended: the token is generated once from the random source with NO
retry on collision; uniqueness is enforced by the UNIQUE constraint alone —
a colliding generated token makes the operation fail with
`unique_violation` (state unchanged), while a non-colliding one yields a
link with `download_count = 0` and `is_active = true`. -/
theorem C6_collision_behavior (uid fid : Nat) (eh : Option Nat)
    (pw : Option String) (dl : Option Int) (tok : String) (nid now : Nat)
    (db : DB) (f : FileRec)
    (hfind : db.files.find? (fun g => g.id == fid) = some f)
    (ho : f.owner_id = uid) :
    (db.links.any (fun l => l.token == tok) = true →
       create_share_link uid fid eh pw dl tok nid now db
         = (.error .uniqueViolation, db)) ∧
    (db.links.any (fun l => l.token == tok) = false →
       create_share_link uid fid eh pw dl tok nid now db
         = (.ok ⟨nid, tok, eh.map (fun h => now + h)⟩,
            { db with links :=
               ⟨nid, fid, tok, pw, eh.map (fun h => now + h), dl, 0, uid, true⟩
                 :: db.links })) := by
  constructor
  · intro hc
    simp [create_share_link, hfind, ho, hc]
  · intro hc
    simp [create_share_link, hfind, ho, hc]

theorem C6_collision_behavior_witness :
    c6DB.links.any (fun l => l.token == "abc") = true ∧
    create_share_link 1 5 none none none "abc" 9 0 c6DB
      = (.error .uniqueViolation, c6DB) :=
  ⟨rfl, (C6_collision_behavior 1 5 none none none "abc" 9 0 c6DB _ rfl rfl).1 rfl⟩

/-- C7: for every mutating file operation (rename, soft-delete, restore,
permanent delete, share-link creation): a missing target fails with
`NotFound`, checked before the authorization comparison; an existing target
with a non-owner caller fails with `NotAuthorized`; and in both failure
cases the returned state is exactly the input state — no file record, share
link or ledger change (the transaction aborts before any write). -/
theorem C7_notfound_before_notauthorized (uid fid : Nat) (nn : String)
    (norig : Option String) (t : Nat) (eh : Option Nat) (pw : Option String)
    (dl : Option Int) (tok : String) (nid now : Nat) (db : DB) :
    (db.files.find? (fun g => g.id == fid) = none →
       rename_file uid fid nn norig db = (.error .notFound, db) ∧
       soft_delete_file uid fid t db = (.error .notFound, db) ∧
       restore_file uid fid db = (.error .notFound, db) ∧
       permanently_delete_file uid fid db = (.error .notFound, db) ∧
       create_share_link uid fid eh pw dl tok nid now db = (.error .notFound, db)) ∧
    (∀ f, db.files.find? (fun g => g.id == fid) = some f → f.owner_id ≠ uid →
       rename_file uid fid nn norig db = (.error .notAuthorized, db) ∧
       soft_delete_file uid fid t db = (.error .notAuthorized, db) ∧
       restore_file uid fid db = (.error .notAuthorized, db) ∧
       permanently_delete_file uid fid db = (.error .notAuthorized, db) ∧
       create_share_link uid fid eh pw dl tok nid now db
         = (.error .notAuthorized, db)) := by
  constructor
  · intro h
    exact ⟨by simp [rename_file, h], by simp [soft_delete_file, h],
      by simp [restore_file, h], by simp [permanently_delete_file, h],
      by simp [create_share_link, h]⟩
  · intro f hf ho
    exact ⟨by simp [rename_file, hf, ho], by simp [soft_delete_file, hf, ho],
      by simp [restore_file, hf, ho], by simp [permanently_delete_file, hf, ho],
      by simp [create_share_link, hf, ho]⟩

theorem C7_notfound_before_notauthorized_witness :
    (⟨5, "n", "o", "pa", "ty", 10, none, 1, some false, none, 0⟩ : FileRec).owner_id ≠ 2 ∧
    rename_file 2 5 "x" none c6DB = (.error .notAuthorized, c6DB) ∧
    rename_file 2 99 "x" none c6DB = (.error .notFound, c6DB) :=
  ⟨by decide,
   ((C7_notfound_before_notauthorized 2 5 "x" none 0 none none none "" 0 0 c6DB).2
     _ rfl (by decide)).1,
   ((C7_notfound_before_notauthorized 2 99 "x" none 0 none none none "" 0 0 c6DB).1
     rfl).1⟩

/-! ### Claim about listing (C10) -/

/-- C10: `list_files` called with no folder id returns only the caller's
files whose `folder_id` is null (root-level files), never files inside a
folder — omitting the folder filter does not list all the caller's files;
results are restricted to the caller as owner, exclude soft-deleted files
unless `p_include_deleted` is true, and are ordered by creation time
descending. -/
theorem C10_list_files_root_only (uid : Nat) (pLimit pOffset : Nat)
    (incl : Bool) (fs : List FileRec) :
    (∀ f ∈ list_files uid none pLimit pOffset incl fs,
       f.folder_id = none ∧ f.owner_id = uid ∧
       (incl = false → counted f = true)) ∧
    (list_files uid none pLimit pOffset incl fs).Sorted createdDescRel := by
  constructor
  · intro f hf
    have h1 : f ∈ List.insertionSort createdDescRel
        (fs.filter (listPred uid none incl)) :=
      List.drop_subset _ _ (List.take_subset _ _ hf)
    have h2 : f ∈ fs.filter (listPred uid none incl) :=
      (List.perm_insertionSort createdDescRel _).mem_iff.mp h1
    have h3 := List.of_mem_filter h2
    simp only [listPred, Bool.and_eq_true, beq_iff_eq] at h3
    obtain ⟨⟨howner, hfolder⟩, hdel⟩ := h3
    refine ⟨?_, howner, ?_⟩
    · cases hfid : f.folder_id with
      | none => rfl
      | some v =>
          rw [hfid] at hfolder
          simp at hfolder
    · intro hincl
      rw [hincl] at hdel
      simpa using hdel
  · have hs := List.sorted_insertionSort createdDescRel
      (fs.filter (listPred uid none incl))
    have hsub : List.Sublist (list_files uid none pLimit pOffset incl fs)
        (List.insertionSort createdDescRel (fs.filter (listPred uid none incl))) :=
      (List.take_sublist _ _).trans (List.drop_sublist _ _)
    exact List.Pairwise.sublist hsub hs

def c10Files : List FileRec :=
  [⟨1, "a", "a", "pa", "t", 5, some 9, 7, some false, none, 10⟩,
   ⟨2, "b", "b", "pb", "t", 5, none, 7, some false, none, 20⟩,
   ⟨3, "c", "c", "pc", "t", 5, none, 7, some true, some 1, 30⟩,
   ⟨4, "d", "d", "pd", "t", 5, none, 8, some false, none, 40⟩]

theorem C10_list_files_root_only_witness :
    (⟨2, "b", "b", "pb", "t", 5, none, 7, some false, none, 20⟩ : FileRec)
      ∈ list_files 7 none 50 0 false c10Files ∧
    ((⟨2, "b", "b", "pb", "t", 5, none, 7, some false, none, 20⟩ : FileRec).folder_id = none ∧
     (⟨2, "b", "b", "pb", "t", 5, none, 7, some false, none, 20⟩ : FileRec).owner_id = 7 ∧
     (false = false →
       counted ⟨2, "b", "b", "pb", "t", 5, none, 7, some false, none, 20⟩ = true)) :=
  ⟨by decide,
   (C10_list_files_root_only 7 50 0 false c10Files).1 _ (by decide)⟩
